import Mathlib

/-!
Shallow embedding of the `ds-imerg` data-ingestion pipeline
(`src/datasources/imerg.py` together with `src/utils/blob.py`).

Dates are modelled as day ordinals (days elapsed since 1970-01-01), the
representation underlying both `pandas.Timestamp` and `datetime.date`
arithmetic.  Calendar components for `strftime`-style formatting are
recovered with the standard civil-calendar conversion.  The filesystem is
an association list from paths to byte lists, HTTP is an oracle function,
and the Azure blob listing is the list of blob names it returns.
-/

/-- Day ordinal (days since 1970-01-01) of the civil date `y-m-d`,
the standard civil-from-days inverse used by date libraries. -/
def daysFromCivil (y m d : Nat) : Nat :=
  let yAdj := if m ≤ 2 then y - 1 else y
  let era := yAdj / 400
  let yoe := yAdj % 400
  let mp := (m + 9) % 12
  let doy := (153 * mp + 2) / 5 + d - 1
  let doe := yoe * 365 + yoe / 4 - yoe / 100 + doy
  era * 146097 + doe - 719468

/-- Civil date `(year, month, day)` of a day ordinal (days since
1970-01-01); the standard days-to-civil conversion. -/
def civilFromDays (z : Nat) : Nat × Nat × Nat :=
  let z' := z + 719468
  let era := z' / 146097
  let doe := z' % 146097
  let yoe := (doe - doe / 1460 + doe / 36524 - doe / 146096) / 365
  let y := yoe + era * 400
  let doy := doe - (365 * yoe + yoe / 4 - yoe / 100)
  let mp := (5 * doy + 2) / 153
  let d := doy - (153 * mp + 2) / 5 + 1
  let m := if mp < 10 then mp + 3 else mp - 9
  (if m ≤ 2 then y + 1 else y, m, d)

/-- Zero-padded two-digit decimal rendering, as `%m` / `%d` in `strftime`. -/
def pad2 (n : Nat) : String :=
  if n < 10 then ("0" ++ Nat.repr n) else Nat.repr n

/-- `date.strftime("%Y-%m-%d")` on a day ordinal. -/
def fmtYMDdash (z : Nat) : String :=
  let c := civilFromDays z
  Nat.repr c.1 ++ ("-" ++ (pad2 c.2.1 ++ ("-" ++ pad2 c.2.2)))

/-- `date.strftime("%Y%m%d")` on a day ordinal. -/
def fmtYMDcompact (z : Nat) : String :=
  let c := civilFromDays z
  Nat.repr c.1 ++ (pad2 c.2.1 ++ pad2 c.2.2)

/-- `date.strftime("%Y")` on a day ordinal. -/
def fmtYear (z : Nat) : String := Nat.repr (civilFromDays z).1

/-- `date.strftime("%m")` on a day ordinal. -/
def fmtMonth (z : Nat) : String := pad2 (civilFromDays z).2.1

/-- The blob name built by `download_recent_imerg` for a date:
`f"imerg/v7/imerg-daily-late-{date.strftime('%Y-%m-%d')}.tif"`. -/
def outputBlob (z : Nat) : String :=
  "imerg/v7/imerg-daily-late-" ++ (fmtYMDdash z ++ ".tif")

/-- `IMERG_BASE_URL.format(run=run, date=date, version=version,
version_letter=version_letter)`: the fixed URL template of the module,
with `run`, version, year, month, compact date and the version letter
substituted. -/
def IMERG_BASE_URL_fmt (run : String) (version : Nat) (date : Nat)
    (version_letter : String) : String :=
  "https://gpm1.gesdisc.eosdis.nasa.gov/data/GPM_L3/GPM_3IMERGD" ++
    (run ++ (".0" ++ (Nat.repr version ++ ("/" ++ (fmtYear date ++
      ("/" ++ (fmtMonth date ++ ("/3B-DAY-" ++ (run ++
        (".MS.MRG.3IMERG." ++ (fmtYMDcompact date ++
          ("-S000000-E235959.V0" ++ (Nat.repr version ++
            (version_letter ++ ".nc4"))))))))))))))

/-- `version_letter = "B" if version == 7 else ""` in `download_imerg`. -/
def imergVersionLetter (version : Nat) : String :=
  if version == 7 then ("B") else ("")

/-- The URL `download_imerg` requests for a date, run and version. -/
def imergRequestURL (run : String) (version : Nat) (date : Nat) : String :=
  IMERG_BASE_URL_fmt run version date (imergVersionLetter version)

/-- Local filesystem: association list from paths to byte contents. -/
def FS : Type := List (String × List Nat)

/-- `os.path.exists` / file lookup: the content stored at a path, if any. -/
def fsGet (p : String) (fs : FS) : Option (List Nat) :=
  (fs.find? (fun q => q.1 == p)).map (fun q => q.2)

/-- `os.remove` (guarded by `os.path.exists` in the source): drop any
entry at the path. -/
def fsRemove (p : String) (fs : FS) : FS :=
  fs.filter (fun q => q.1 != p)

/-- `open(save_path, "wb"); f.write(result.content)`: overwrite the path
with the given content. -/
def fsWrite (p : String) (c : List Nat) (fs : FS) : FS :=
  (p, c) :: fsRemove p fs

/-- An HTTP response as seen by `requests.get`: final status code and
body bytes. -/
structure HttpResponse where
  status : Nat
  content : List Nat
deriving DecidableEq

/-- `requests.Response.raise_for_status`: raises `HTTPError` exactly for
client-error (4xx) and server-error (5xx) status codes. -/
def raise_for_status (r : HttpResponse) : Except String Unit :=
  if 400 ≤ r.status ∧ r.status < 600 then Except.error ("HTTPError")
  else Except.ok ()

/-- `download_imerg(date, run, version, save_path)` over an HTTP oracle
and a filesystem: removes any pre-existing file at `save_path`, builds
the URL, performs one GET (no retry), raises for error statuses, and on
success writes the full body to `save_path`.  Returns the outcome
(`Except`, mirroring a raised exception) and the resulting filesystem. -/
def download_imerg (http : String → Except String HttpResponse)
    (date : Nat) (run : String) (version : Nat) (save_path : String)
    (fs : FS) : Except String Unit × FS :=
  let fs1 := fsRemove save_path fs
  let url := imergRequestURL run version date
  match http url with
  | Except.error e => (Except.error e, fs1)
  | Except.ok r =>
    match raise_for_status r with
    | Except.error e => (Except.error e, fs1)
    | Except.ok _ => (Except.ok (), fsWrite save_path r.content fs1)

/-- Observable per-date actions of the driver loop, each tagged with the
day ordinal it concerns: the skip log line, the "downloading and
processing" log line, the three stage invocations, and the failure log
line printed by the `except` clause. -/
inductive Event where
  | skipMsg (d : Nat)
  | procMsg (d : Nat)
  | fetchCall (d : Nat)
  | transformCall (d : Nat)
  | publishCall (d : Nat)
  | failMsg (d : Nat)
deriving DecidableEq

/-- The date an event is tagged with. -/
def eventDate : Event → Nat
  | Event.skipMsg d => d
  | Event.procMsg d => d
  | Event.fetchCall d => d
  | Event.transformCall d => d
  | Event.publishCall d => d
  | Event.failMsg d => d

/-- Outcome oracles for the three pipeline stages when invoked for a
date: `download_imerg`, `process_imerg`, `upload_imerg` each either
return normally or raise. -/
structure Oracles where
  fetch : Nat → Except String Unit
  transform : Nat → Except String Unit
  publish : Nat → Except String Unit

/-- The `try` block of the driver for one date: fetch, then transform,
then publish, stopping at the first raised exception, which the
`except Exception` clause turns into a failure log line. -/
def tryProcess (o : Oracles) (d : Nat) : List Event :=
  match o.fetch d with
  | Except.error _ => [Event.fetchCall d, Event.failMsg d]
  | Except.ok _ =>
    match o.transform d with
    | Except.error _ =>
        [Event.fetchCall d, Event.transformCall d, Event.failMsg d]
    | Except.ok _ =>
      match o.publish d with
      | Except.error _ =>
          [Event.fetchCall d, Event.transformCall d,
            Event.publishCall d, Event.failMsg d]
      | Except.ok _ =>
          [Event.fetchCall d, Event.transformCall d, Event.publishCall d]

/-- One iteration of the driver loop: skip (with a log line) when the
output blob name is in the up-front listing, otherwise log and run the
guarded three-stage sequence. -/
def perDate (o : Oracles) (existing : List String) (d : Nat) : List Event :=
  if outputBlob d ∈ existing then [Event.skipMsg d]
  else Event.procMsg d :: tryProcess o d

/-- Day ordinal of the fixed start date 2024-06-01. -/
def imergStartDay : Nat := daysFromCivil 2024 6 1

/-- `pd.date_range("2024-06-01", datetime.date.today() - DateOffset(days=1))`:
the day ordinals from the fixed start through yesterday, inclusive,
given today's day ordinal. -/
def driverDates (today : Nat) : List Nat :=
  List.range' imergStartDay (today - imergStartDay)

/-- `download_recent_imerg()`: fetches the blob listing once (here the
parameter `existing`), then iterates the date range, producing the
concatenated per-date event trace. -/
def download_recent_imerg (o : Oracles) (existing : List String)
    (today : Nat) : List Event :=
  (driverDates today).flatMap (perDate o existing)

/-- One value of a time coordinate: the calendar date (day ordinal) and
the time-of-day component. -/
structure TimeVal where
  day : Nat
  sec : Nat
deriving DecidableEq

/-- A time coordinate: whether its dtype is already `<M8[ns]`
(nanosecond-precision datetime64) and its values. -/
structure TimeCoord where
  isNs : Bool
  values : List TimeVal
deriving DecidableEq

/-- A dataset variable: its name and ordered dimensions with lengths. -/
structure DataVar where
  name : String
  dims : List (String × Nat)
deriving DecidableEq

/-- An xarray `Dataset` at the granularity the transformer observes:
its variables and its `time` coordinate. -/
structure Dataset where
  vars : List DataVar
  time : TimeCoord
deriving DecidableEq

/-- The dimension names of a dataset (union over its variables). -/
def dsDimNames (ds : Dataset) : List String :=
  (ds.vars.flatMap (fun v => v.dims.map Prod.fst)).dedup

/-- Whether `name in ds` holds for a variable name. -/
def hasVar (ds : Dataset) (n : String) : Bool :=
  ds.vars.any (fun v => v.name == n)

/-- `ds[name]`: look the variable up, `none` mirroring a `KeyError`. -/
def getVar (ds : Dataset) (n : String) : Option DataVar :=
  ds.vars.find? (fun v => v.name == n)

/-- Reorder one variable's dimensions to follow the given order
(restricted to the dimensions the variable has), as `Dataset.transpose`
does per variable. -/
def transposeVar (order : List String) (v : DataVar) : DataVar :=
  { v with dims := order.filterMap (fun n => v.dims.find? (fun p => p.1 == n)) }

/-- `ds.transpose(*order)`: requires the listed names to be exactly the
dataset's dimensions (else `ValueError`, here `none`), then reorders
every variable's dimensions. -/
def transposeDs (order : List String) (ds : Dataset) : Option Dataset :=
  if order.all (fun n => (dsDimNames ds).contains n) &&
      (dsDimNames ds).all (fun n => order.contains n) then
    some { ds with vars := ds.vars.map (transposeVar order) }
  else none

/-- An xarray `DataArray` at the granularity the transformer observes:
ordered dimensions with lengths, whether a `time` coordinate is attached,
and that coordinate. -/
structure DataArray where
  dims : List (String × Nat)
  hasTimeCoord : Bool
  time : TimeCoord
deriving DecidableEq

/-- `ds[var_name]`: the selected variable as a `DataArray`, carrying the
dataset's `time` coordinate when `time` is one of its dimensions. -/
def mkDataArray (ds : Dataset) (v : DataVar) : DataArray :=
  { dims := v.dims
    hasTimeCoord := v.dims.any (fun p => p.1 == "time")
    time := ds.time }

/-- Models `pd.Timestamp(t.strftime("%Y-%m-%d"))`: a date-only format
keeps the calendar date and discards the time of day; reparsing yields
that date at midnight. -/
def toMidnight (t : TimeVal) : TimeVal := { day := t.day, sec := 0 }

/-- The time-coordinate guard of `process_imerg`: when the dtype is not
already `<M8[ns]`, every value is reformatted as `%Y-%m-%d` and reparsed
with `pd.to_datetime`, yielding nanosecond-precision midnights;
otherwise the coordinate is untouched. -/
def fixTimes (tc : TimeCoord) : TimeCoord :=
  if tc.isNs then tc
  else { isNs := true, values := tc.values.map toMidnight }

/-- `da.rename({"lon": "x", "lat": "y"})`: requires both names to be
present (else `ValueError`, here `none`) and renames the dimensions. -/
def renameDA (da : DataArray) : Option DataArray :=
  if da.dims.any (fun p => p.1 == "lon") &&
      da.dims.any (fun p => p.1 == "lat") then
    some { da with
       dims := da.dims.map (fun p =>
         if p.1 == "lon" then (("x"), p.2)
         else if p.1 == "lat" then (("y"), p.2) else p) }
  else none

/-- `da.squeeze(drop=True)`: drop every length-1 dimension, and drop the
coordinates of the dropped dimensions (so a squeezed `time` dimension
takes its coordinate with it). -/
def squeezeDrop (da : DataArray) : DataArray :=
  let squeezed := (da.dims.filter (fun p => p.2 == 1)).map Prod.fst
  { dims := da.dims.filter (fun p => p.2 != 1)
    hasTimeCoord := da.hasTimeCoord && !(squeezed.contains ("time"))
    time := da.time }

/-- The variable name `process_imerg` selects:
`"precipitationCal" if "precipitationCal" in ds else "precipitation"`. -/
def selectedVar (ds : Dataset) : String :=
  if hasVar ds ("precipitationCal") then ("precipitationCal")
  else ("precipitation")

/-- `process_imerg`: transpose to `("lat", "lon", "time", "nv")`, select
the precipitation variable, normalise the time coordinate when its
dtype is not `<M8[ns]`, rename `lon`/`lat` to `x`/`y`, and squeeze with
`drop=True`.  The file read by `xr.open_dataset` is the `Dataset`
argument; `none` mirrors a raised library error. -/
def process_imerg (ds0 : Dataset) : Option DataArray :=
  match transposeDs [("lat"), ("lon"), ("time"), ("nv")] ds0 with
  | none => none
  | some ds =>
    match getVar ds (selectedVar ds) with
    | none => none
    | some v =>
      let da := mkDataArray ds v
      let da := { da with time := fixTimes da.time }
      match renameDA da with
      | none => none
      | some da => some (squeezeDrop da)

/-- Modelled from the spec: a successful HTTP status is one in the 2xx
class.  Used to compare the spec's "non-success status" wording with the
behaviour of `raise_for_status`. -/
def httpSuccess (s : Nat) : Prop := 200 ≤ s ∧ s ≤ 299

/-- Stage oracles in which every stage returns normally. -/
def allOk : Oracles :=
  { fetch := fun _ => Except.ok ()
    transform := fun _ => Except.ok ()
    publish := fun _ => Except.ok () }

/-- Stage oracles in which every fetch raises (e.g. an HTTP 404). -/
def failFetch : Oracles :=
  { fetch := fun _ => Except.error ("HTTP Error 404")
    transform := fun _ => Except.ok ()
    publish := fun _ => Except.ok () }

/-- Stage oracles in which the fetch succeeds but every transform
raises (e.g. a parse failure on the downloaded file). -/
def failTransform : Oracles :=
  { fetch := fun _ => Except.ok ()
    transform := fun _ => Except.error ("ValueError")
    publish := fun _ => Except.ok () }

/-- HTTP oracle answering every request with status 304 and a one-byte
body. -/
def http304 : String → Except String HttpResponse :=
  fun _ => Except.ok { status := 304, content := [7] }

/-- HTTP oracle answering every request with status 200 and a two-byte
body. -/
def http200 : String → Except String HttpResponse :=
  fun _ => Except.ok { status := 200, content := [1, 2] }

/-- HTTP oracle on which every request raises a connection error. -/
def httpDown : String → Except String HttpResponse :=
  fun _ => Except.error ("ConnectionError")

/-- A sample raw IMERG daily granule as the transformer sees it: a
calibrated precipitation variable on `time × lon × lat`, the time-bounds
variable on `time × nv`, and an object-dtype time coordinate holding
2024-06-01 at second 555 of the day. -/
def sampleDs : Dataset :=
  { vars := [{ name := "precipitationCal"
               dims := [(("time"), 1), (("lon"), 3), (("lat"), 2)] },
             { name := "time_bnds"
               dims := [(("time"), 1), (("nv"), 2)] }]
    time := { isNs := false, values := [{ day := 19875, sec := 555 }] } }

/-- `sampleDs` after `transpose("lat", "lon", "time", "nv")`. -/
def sampleDsT : Dataset :=
  { vars := [{ name := "precipitationCal"
               dims := [(("lat"), 2), (("lon"), 3), (("time"), 1)] },
             { name := "time_bnds"
               dims := [(("time"), 1), (("nv"), 2)] }]
    time := { isNs := false, values := [{ day := 19875, sec := 555 }] } }

/-- A raw granule carrying both the calibrated and the uncalibrated
precipitation variable. -/
def bothVarsDs : Dataset :=
  { vars := [{ name := "precipitation"
               dims := [(("time"), 1), (("lon"), 3), (("lat"), 2)] },
             { name := "precipitationCal"
               dims := [(("time"), 1), (("lon"), 3), (("lat"), 2)] },
             { name := "time_bnds"
               dims := [(("time"), 1), (("nv"), 2)] }]
    time := { isNs := true, values := [{ day := 19875, sec := 0 }] } }

/-- Every event of the guarded three-stage block for a date is tagged
with that date. -/
lemma tryProcess_tag (o : Oracles) (d : Nat) :
    ∀ e ∈ tryProcess o d, eventDate e = d := by
  intro e he
  unfold tryProcess at he
  cases hf : o.fetch d <;> rw [hf] at he
  · simp at he
    rcases he with h | h <;> simp [h, eventDate]
  · cases ht : o.transform d <;> rw [ht] at he
    · simp at he
      rcases he with h | h | h <;> simp [h, eventDate]
    · cases hp : o.publish d <;> rw [hp] at he <;> simp at he
      · rcases he with h | h | h | h <;> simp [h, eventDate]
      · rcases he with h | h | h <;> simp [h, eventDate]

/-- Every event of one driver-loop iteration is tagged with its date. -/
lemma perDate_tag (o : Oracles) (ex : List String) (d : Nat) :
    ∀ e ∈ perDate o ex d, eventDate e = d := by
  intro e he
  unfold perDate at he
  by_cases hm : outputBlob d ∈ ex
  · rw [if_pos hm] at he
    simp at he
    simp [he, eventDate]
  · rw [if_neg hm] at he
    rcases List.mem_cons.mp he with h | h
    · simp [h, eventDate]
    · exact tryProcess_tag o d e h

/-- The three-stage block always begins by invoking the fetcher. -/
lemma fetchCall_mem_tryProcess (o : Oracles) (d : Nat) :
    Event.fetchCall d ∈ tryProcess o d := by
  unfold tryProcess
  cases o.fetch d <;> [skip; cases o.transform d] <;>
    [simp; simp; cases o.publish d] <;> simp

/-- If any of the three stage oracles raises for a date, the guarded
block for that date records the failure log line. -/
lemma failMsg_mem_tryProcess (o : Oracles) (d : Nat) (s : String)
    (h : o.fetch d = Except.error s ∨ o.transform d = Except.error s ∨
      o.publish d = Except.error s) :
    Event.failMsg d ∈ tryProcess o d := by
  unfold tryProcess
  cases hf : o.fetch d with
  | error e => simp
  | ok u =>
    cases ht : o.transform d with
    | error e => simp
    | ok u2 =>
      cases hp : o.publish d with
      | error e => simp
      | ok u3 =>
        rw [hf, ht, hp] at h
        simp at h

/-- Filtering a date-tagged flat map by one of the (distinct) dates
recovers exactly that date's block. -/
lemma filter_flatMap_tag (f : Nat → List Event)
    (hf : ∀ x, ∀ e ∈ f x, eventDate e = x) :
    ∀ l : List Nat, l.Nodup → ∀ d ∈ l,
      (l.flatMap f).filter (fun e => eventDate e == d) = f d := by
  intro l
  induction l with
  | nil => intro _ d hd; simp at hd
  | cons a l ih =>
    intro hnd d hd
    rw [List.flatMap_cons, List.filter_append]
    rcases List.mem_cons.mp hd with rfl | hdl
    · have h1 : (f d).filter (fun e => eventDate e == d) = f d :=
        List.filter_eq_self.mpr (fun e he => by simp [hf d e he])
      have h2 : (l.flatMap f).filter (fun e => eventDate e == d) = [] := by
        refine List.filter_eq_nil_iff.mpr ?_
        intro e he
        rcases List.mem_flatMap.mp he with ⟨x, hx, hex⟩
        have := hf x e hex
        have hxd : x ≠ d := fun h => (List.nodup_cons.mp hnd).1 (h ▸ hx)
        simp [this, hxd]
      rw [h1, h2, List.append_nil]
    · have h1 : (f a).filter (fun e => eventDate e == d) = [] := by
        refine List.filter_eq_nil_iff.mpr ?_
        intro e he
        have := hf a e he
        have had : a ≠ d := fun h => (List.nodup_cons.mp hnd).1 (h ▸ hdl)
        simp [this, had]
      rw [h1, List.nil_append]
      exact ih (List.nodup_cons.mp hnd).2 d hdl

/-- Looking a path up after removing it finds nothing. -/
lemma fsGet_fsRemove (p : String) (fs : FS) :
    fsGet p (fsRemove p fs) = none := by
  unfold fsGet fsRemove
  induction fs with
  | nil => rfl
  | cons q fs ih =>
    by_cases h : q.1 = p
    · simp [h]
    · simp only [List.filter_cons]
      have : (q.1 != p) = true := by simp [h]
      rw [this]
      simp only [if_true]
      rw [List.find?_cons_of_neg _ (by simp [h])]
      exact ih

/-- Looking a path up right after writing it finds the written bytes. -/
lemma fsGet_fsWrite (p : String) (c : List Nat) (fs : FS) :
    fsGet p (fsWrite p c fs) = some c := by
  unfold fsGet fsWrite
  rw [List.find?_cons_of_pos _ (by simp)]
  rfl

/-- `List.range'` with step 1 steps by exactly one. -/
lemma chain_consec (s n : Nat) :
    List.Chain' (fun a b => b = a + 1) (List.range' s n) := by
  induction n generalizing s with
  | zero => simp
  | succ n ih =>
    rw [List.range'_succ s n 1, List.chain'_cons']
    refine ⟨?_, ih (s + 1)⟩
    intro h hh
    cases n with
    | zero => simp at hh
    | succ m =>
      rw [List.range'_succ] at hh
      simp at hh
      omega

/-- A string append is a suffix of any further left-extension. -/
lemma suffix_appendLeft (a : String) {t s : String}
    (h : ∃ p, s = p ++ t) : ∃ p, a ++ s = p ++ t := by
  obtain ⟨p, rfl⟩ := h
  exact ⟨a ++ p, (String.append_assoc a p t).symm⟩

/-- Claim C1: for every date in the driver's range whose expected output
blob name is in the remote listing taken at the start of the run,
`download_recent_imerg` emits only the skip log line for that date — it
invokes none of fetch, transform, publish for it — and every date of the
range still contributes exactly its own per-date block to the trace. -/
theorem c1_skip_existing (o : Oracles) (ex : List String) (today d : Nat)
    (hd : d ∈ driverDates today) (hex : outputBlob d ∈ ex) :
    (download_recent_imerg o ex today).filter
        (fun e => eventDate e == d) = [Event.skipMsg d] ∧
    ∀ d' ∈ driverDates today,
      (download_recent_imerg o ex today).filter
          (fun e => eventDate e == d') = perDate o ex d' := by
  have hnd : (driverDates today).Nodup := by
    unfold driverDates
    exact List.nodup_range' _ _ 1 Nat.one_pos
  have hgen : ∀ d' ∈ driverDates today,
      (download_recent_imerg o ex today).filter
          (fun e => eventDate e == d') = perDate o ex d' := by
    intro d' hd'
    exact filter_flatMap_tag (perDate o ex) (perDate_tag o ex)
      (driverDates today) hnd d' hd'
  refine ⟨?_, hgen⟩
  rw [hgen d hd]
  simp [perDate, hex]

/-- Claim C2: any exception raised by the fetch, transform or publish
stage for a date in the range is caught inside the per-date loop and
logged with the failing date (the failure log line for that date appears
in the trace), the loop proceeds — every non-listed date of the range
still has its fetch invoked, so a failing date never prevents processing
of the next one — and every date of the range contributes exactly its
own per-date block; `download_recent_imerg` always returns a trace, so
no per-date exception escapes it. -/
theorem c2_per_date_isolation (o : Oracles) (ex : List String)
    (today d : Nat) (hd : d ∈ driverDates today)
    (hb : outputBlob d ∉ ex) (s : String)
    (hf : o.fetch d = Except.error s ∨ o.transform d = Except.error s ∨
      o.publish d = Except.error s) :
    Event.failMsg d ∈ download_recent_imerg o ex today ∧
    (∀ d' ∈ driverDates today, outputBlob d' ∉ ex →
      Event.fetchCall d' ∈ download_recent_imerg o ex today) ∧
    (∀ d' ∈ driverDates today,
      (download_recent_imerg o ex today).filter
        (fun e => eventDate e == d') = perDate o ex d') := by
  have hnd : (driverDates today).Nodup := by
    unfold driverDates
    exact List.nodup_range' _ _ 1 Nat.one_pos
  refine ⟨?_, ?_, ?_⟩
  · refine List.mem_flatMap.mpr ⟨d, hd, ?_⟩
    rw [perDate, if_neg hb]
    exact List.mem_cons_of_mem _ (failMsg_mem_tryProcess o d s hf)
  · intro d' hd' hb'
    refine List.mem_flatMap.mpr ⟨d', hd', ?_⟩
    rw [perDate, if_neg hb']
    exact List.mem_cons_of_mem _ (fetchCall_mem_tryProcess o d')
  · intro d' hd'
    exact filter_flatMap_tag (perDate o ex) (perDate_tag o ex)
      (driverDates today) hnd d' hd'

/-- Claim C9: the driver iterates exactly the day ordinals from the
fixed start date 2024-06-01 through yesterday (the day before the
invocation date), inclusive, in chronological order — consecutive,
strictly ascending — and its trace is the concatenation of the per-date
blocks over that range, one date at a time. -/
theorem c9_date_range (o : Oracles) (ex : List String) (today : Nat)
    (h : 1 ≤ today) :
    (∀ d, d ∈ driverDates today ↔
      (imergStartDay ≤ d ∧ d ≤ today - 1)) ∧
    List.Chain' (fun a b => b = a + 1) (driverDates today) ∧
    download_recent_imerg o ex today =
      (driverDates today).flatMap (perDate o ex) := by
  refine ⟨?_, ?_, rfl⟩
  · intro d
    unfold driverDates
    rw [List.mem_range'_1]
    omega
  · unfold driverDates
    generalize today - imergStartDay = n
    exact chain_consec imergStartDay n

/-- Witness for C9 at a concrete invocation date two days past the
start date. -/
theorem c9_date_range_witness :
    1 ≤ imergStartDay + 2 ∧
    ((∀ d, d ∈ driverDates (imergStartDay + 2) ↔
       (imergStartDay ≤ d ∧ d ≤ imergStartDay + 2 - 1)) ∧
     List.Chain' (fun a b => b = a + 1) (driverDates (imergStartDay + 2)) ∧
     download_recent_imerg allOk [] (imergStartDay + 2) =
       (driverDates (imergStartDay + 2)).flatMap (perDate allOk [])) :=
  ⟨by omega, c9_date_range allOk [] (imergStartDay + 2) (by omega)⟩

/-- Witness for C1: with the start date's blob already listed and an
invocation two days after the start date, that date only logs a skip. -/
theorem c1_skip_existing_witness :
    (imergStartDay ∈ driverDates (imergStartDay + 2) ∧
      outputBlob imergStartDay ∈ [outputBlob imergStartDay]) ∧
    ((download_recent_imerg allOk [outputBlob imergStartDay]
        (imergStartDay + 2)).filter
        (fun e => eventDate e == imergStartDay) =
        [Event.skipMsg imergStartDay] ∧
     ∀ d' ∈ driverDates (imergStartDay + 2),
       (download_recent_imerg allOk [outputBlob imergStartDay]
           (imergStartDay + 2)).filter
           (fun e => eventDate e == d') =
         perDate allOk [outputBlob imergStartDay] d') :=
  ⟨⟨by decide, by decide⟩,
    c1_skip_existing allOk [outputBlob imergStartDay] (imergStartDay + 2)
      imergStartDay (by decide) (by decide)⟩

/-- Witness for C2: with an empty listing and an oracle whose transform
raises a parse failure, the start date's failure is logged, the next
date is still fetched, and each date keeps its own block. -/
theorem c2_per_date_isolation_witness :
    (imergStartDay ∈ driverDates (imergStartDay + 2) ∧
     outputBlob imergStartDay ∉ ([] : List String) ∧
     (failTransform.fetch imergStartDay = Except.error ("ValueError") ∨
      failTransform.transform imergStartDay =
        Except.error ("ValueError") ∨
      failTransform.publish imergStartDay =
        Except.error ("ValueError"))) ∧
    (Event.failMsg imergStartDay ∈
        download_recent_imerg failTransform [] (imergStartDay + 2) ∧
     (∀ d' ∈ driverDates (imergStartDay + 2),
       outputBlob d' ∉ ([] : List String) →
       Event.fetchCall d' ∈
         download_recent_imerg failTransform [] (imergStartDay + 2)) ∧
     (∀ d' ∈ driverDates (imergStartDay + 2),
       (download_recent_imerg failTransform []
           (imergStartDay + 2)).filter
         (fun e => eventDate e == d') = perDate failTransform [] d')) :=
  ⟨⟨by decide, by simp, Or.inr (Or.inl rfl)⟩,
    c2_per_date_isolation failTransform [] (imergStartDay + 2)
      imergStartDay (by decide) (by simp) ("ValueError")
      (Or.inr (Or.inl rfl))⟩

/-- Claim C3: for every date and run designator, the URL built by
`download_imerg` substitutes run, version and date into the fixed
template with a version-dependent suffix letter: version 7 URLs end in
`V07B.nc4`, and for any other version the trailing letter is empty, the
URL ending in `V0` followed by the version digits and `.nc4`. -/
theorem c3_url_version_suffix (run : String) (z : Nat) :
    (∃ p, imergRequestURL run 7 z = p ++ "V07B.nc4") ∧
    (∀ v : Nat, v ≠ 7 → ∃ p, imergRequestURL run v z =
      p ++ ("V0" ++ (Nat.repr v ++ ".nc4"))) := by
  constructor
  · show ∃ p, IMERG_BASE_URL_fmt run 7 z ("B") = p ++ "V07B.nc4"
    unfold IMERG_BASE_URL_fmt
    apply suffix_appendLeft
    apply suffix_appendLeft
    apply suffix_appendLeft
    apply suffix_appendLeft
    apply suffix_appendLeft
    apply suffix_appendLeft
    apply suffix_appendLeft
    apply suffix_appendLeft
    apply suffix_appendLeft
    apply suffix_appendLeft
    apply suffix_appendLeft
    apply suffix_appendLeft
    exact ⟨"-S000000-E235959.", by decide⟩
  · intro v hv
    have hL : imergVersionLetter v = "" := by
      unfold imergVersionLetter
      rw [if_neg (by simp [hv])]
    unfold imergRequestURL
    rw [hL]
    unfold IMERG_BASE_URL_fmt
    apply suffix_appendLeft
    apply suffix_appendLeft
    apply suffix_appendLeft
    apply suffix_appendLeft
    apply suffix_appendLeft
    apply suffix_appendLeft
    apply suffix_appendLeft
    apply suffix_appendLeft
    apply suffix_appendLeft
    apply suffix_appendLeft
    apply suffix_appendLeft
    apply suffix_appendLeft
    refine ⟨"-S000000-E235959.", ?_⟩
    rw [(by decide : (("" : String) ++ ".nc4") = ".nc4"),
      ← String.append_assoc ("-S000000-E235959.") ("V0")
        (Nat.repr v ++ ".nc4"),
      (by decide : (("-S000000-E235959." : String) ++ "V0") =
        "-S000000-E235959.V0")]

/-- Witness for C3 at version 6 and a concrete date. -/
theorem c3_url_version_suffix_witness :
    (6 ≠ 7) ∧ ∃ p, imergRequestURL ("L") 6 19906 =
      p ++ ("V0" ++ (Nat.repr 6 ++ ".nc4")) :=
  ⟨by decide, (c3_url_version_suffix ("L") 19906).2 6 (by decide)⟩

/-- Under the standard granule shape — after transpose the selected
variable has dimensions `lat`, `lon` and a singleton `time` — the
transformer returns the renamed, squeezed array with the time
coordinate dropped. -/
lemma process_shape (ds0 ds : Dataset) (v : DataVar) (a b : Nat)
    (h1 : transposeDs [("lat"), ("lon"), ("time"), ("nv")] ds0 = some ds)
    (h2 : getVar ds (selectedVar ds) = some v)
    (h3 : v.dims = [(("lat"), a), (("lon"), b), (("time"), 1)])
    (ha : a ≠ 1) (hb : b ≠ 1) :
    process_imerg ds0 = some
      { dims := [(("y"), a), (("x"), b)]
        hasTimeCoord := false
        time := fixTimes ds.time } := by
  have ha' : (a == 1) = false := by simp [ha]
  have hb' : (b == 1) = false := by simp [hb]
  simp only [process_imerg, h1, h2]
  simp only [mkDataArray, renameDA, squeezeDrop, h3]
  simp [ha', hb', List.filter_cons, bne]

/-- Claim C4: for an accepted granule — after transpose the selected
variable has `lat` and `lon` dimensions of non-singleton length and a
singleton `time` dimension — the array returned by `process_imerg` has
its spatial dimensions named exactly `y` (from `lat`) and `x` (from
`lon`) and contains no residual length-1 dimension. -/
theorem c4_spatial_dims (ds0 ds : Dataset) (v : DataVar) (a b : Nat)
    (h1 : transposeDs [("lat"), ("lon"), ("time"), ("nv")] ds0 = some ds)
    (h2 : getVar ds (selectedVar ds) = some v)
    (h3 : v.dims = [(("lat"), a), (("lon"), b), (("time"), 1)])
    (ha : a ≠ 1) (hb : b ≠ 1) :
    ∃ da, process_imerg ds0 = some da ∧
      da.dims.map Prod.fst = [("y"), ("x")] ∧
      ∀ p ∈ da.dims, p.2 ≠ 1 := by
  refine ⟨_, process_shape ds0 ds v a b h1 h2 h3 ha hb, by simp, ?_⟩
  intro p hp
  simp at hp
  rcases hp with h | h <;> rw [h] <;> assumption

/-- Witness for C4 on the sample granule (2 × 3 grid, singleton time). -/
theorem c4_spatial_dims_witness :
    (transposeDs [("lat"), ("lon"), ("time"), ("nv")] sampleDs =
        some sampleDsT ∧
      getVar sampleDsT (selectedVar sampleDsT) =
        some { name := "precipitationCal"
               dims := [(("lat"), 2), (("lon"), 3), (("time"), 1)] }) ∧
    (∃ da, process_imerg sampleDs = some da ∧
      da.dims.map Prod.fst = [("y"), ("x")] ∧
      ∀ p ∈ da.dims, p.2 ≠ 1) :=
  ⟨⟨by decide, by decide⟩,
    c4_spatial_dims sampleDs sampleDsT
      { name := "precipitationCal"
        dims := [(("lat"), 2), (("lon"), 3), (("time"), 1)] }
      2 3 (by decide) (by decide) (by decide) (by decide) (by decide)⟩

/-- Claim C5: when the time coordinate's dtype is not already
nanosecond-precision datetime64, `process_imerg` (through `fixTimes`)
replaces every time value by its calendar date with the time of day
discarded — the value obtained by formatting as `%Y-%m-%d` and
reparsing — and the resulting dtype is nanosecond datetime64; when the
dtype already is nanosecond datetime64, the coordinate is unchanged. -/
theorem c5_time_rewrite (tc : TimeCoord) :
    (tc.isNs = false →
      fixTimes tc =
        { isNs := true
          values := tc.values.map
            (fun t => { day := t.day, sec := 0 }) }) ∧
    (tc.isNs = true → fixTimes tc = tc) := by
  constructor
  · intro h
    simp [fixTimes, h, toMidnight]
  · intro h
    simp [fixTimes, h]

/-- Witness for C5 on an object-dtype coordinate holding one value with
a nonzero time of day. -/
theorem c5_time_rewrite_witness :
    TimeCoord.isNs
        { isNs := false, values := [{ day := 19875, sec := 555 }] } =
      false ∧
    fixTimes { isNs := false, values := [{ day := 19875, sec := 555 }] } =
      { isNs := true
        values := [({ day := 19875, sec := 555 } : TimeVal)].map
          (fun t => { day := t.day, sec := 0 }) } :=
  ⟨rfl, (c5_time_rewrite
    { isNs := false, values := [{ day := 19875, sec := 555 }] }).1 rfl⟩

/-- Claim C6: the transformer selects `precipitationCal` whenever that
variable is present (even when `precipitation` is also present), and
falls back to `precipitation` when `precipitationCal` is absent. -/
theorem c6_variable_selection (ds : Dataset) :
    (hasVar ds ("precipitationCal") = true →
      selectedVar ds = "precipitationCal") ∧
    (hasVar ds ("precipitationCal") = false →
      hasVar ds ("precipitation") = true →
      selectedVar ds = "precipitation") := by
  constructor
  · intro h
    simp [selectedVar, h]
  · intro h _
    simp [selectedVar, h]

/-- Witness for C6 on a granule carrying both variable names. -/
theorem c6_variable_selection_witness :
    hasVar bothVarsDs ("precipitationCal") = true ∧
    selectedVar bothVarsDs = "precipitationCal" :=
  ⟨by decide, (c6_variable_selection bothVarsDs).1 (by decide)⟩

/-- Counterexample to claim C7 as stated: on the sample granule the
transformer succeeds, but the returned array does not carry a time
coordinate — `squeeze(drop=True)` drops the coordinate together with
the squeezed singleton `time` dimension. -/
theorem c7_counterexample :
    (process_imerg sampleDs).map DataArray.hasTimeCoord = some false := by
  decide

/-- Claim C7 as amended: after the singleton `time` dimension is
squeezed away, the associated calendar-date time coordinate is dropped
as well (because squeeze is called with `drop=True`), so the returned
array carries no time coordinate. -/
theorem c7_amended_no_time_coord (ds0 ds : Dataset) (v : DataVar)
    (a b : Nat)
    (h1 : transposeDs [("lat"), ("lon"), ("time"), ("nv")] ds0 = some ds)
    (h2 : getVar ds (selectedVar ds) = some v)
    (h3 : v.dims = [(("lat"), a), (("lon"), b), (("time"), 1)])
    (ha : a ≠ 1) (hb : b ≠ 1) :
    ∃ da, process_imerg ds0 = some da ∧ da.hasTimeCoord = false :=
  ⟨_, process_shape ds0 ds v a b h1 h2 h3 ha hb, rfl⟩

/-- Witness for the amended C7 on the sample granule. -/
theorem c7_amended_no_time_coord_witness :
    (transposeDs [("lat"), ("lon"), ("time"), ("nv")] sampleDs =
        some sampleDsT ∧
      getVar sampleDsT (selectedVar sampleDsT) =
        some { name := "precipitationCal"
               dims := [(("lat"), 2), (("lon"), 3), (("time"), 1)] }) ∧
    (∃ da, process_imerg sampleDs = some da ∧ da.hasTimeCoord = false) :=
  ⟨⟨by decide, by decide⟩,
    c7_amended_no_time_coord sampleDs sampleDsT
      { name := "precipitationCal"
        dims := [(("lat"), 2), (("lon"), 3), (("time"), 1)] }
      2 3 (by decide) (by decide) (by decide) (by decide) (by decide)⟩

/-- Counterexample to claim C8 as stated: on a GET that returns status
304 — not a success status — `download_imerg` raises no error and still
writes the body to `save_path`, because `raise_for_status` only raises
for 4xx/5xx statuses. -/
theorem c8_counterexample :
    (download_imerg http304 19875 ("L") 7 ("temp/imerg_temp.nc") []).1 =
      Except.ok () ∧
    ¬ httpSuccess 304 ∧
    fsGet ("temp/imerg_temp.nc")
      (download_imerg http304 19875 ("L") 7 ("temp/imerg_temp.nc") []).2 =
      some [7] := by
  refine ⟨rfl, ?_, rfl⟩
  intro h
  exact absurd h.2 (by omega)

/-- Claim C8 as amended: `download_imerg` propagates an error (uncaught,
with no retry) iff the single GET fails or the final status is a
client/server error (4xx/5xx, what `raise_for_status` raises for); the
response body is written in full to `save_path` exactly when no error is
raised — in particular for non-2xx statuses below 400 nothing is raised
and the body is still written. -/
theorem c8_error_propagation (http : String → Except String HttpResponse)
    (d : Nat) (run : String) (v : Nat) (p : String) (fs : FS) :
    (∀ e, http (imergRequestURL run v d) = Except.error e →
      download_imerg http d run v p fs =
        (Except.error e, fsRemove p fs)) ∧
    (∀ r, http (imergRequestURL run v d) = Except.ok r →
      400 ≤ r.status → r.status < 600 →
      download_imerg http d run v p fs =
        (Except.error ("HTTPError"), fsRemove p fs)) ∧
    (∀ r, http (imergRequestURL run v d) = Except.ok r →
      ¬ (400 ≤ r.status ∧ r.status < 600) →
      (download_imerg http d run v p fs).1 = Except.ok () ∧
      fsGet p (download_imerg http d run v p fs).2 = some r.content) := by
  refine ⟨?_, ?_, ?_⟩
  · intro e he
    simp [download_imerg, he]
  · intro r hr h4 h6
    simp only [download_imerg, hr]
    unfold raise_for_status
    rw [if_pos ⟨h4, h6⟩]
  · intro r hr hns
    have hrs : raise_for_status r = Except.ok () := by
      unfold raise_for_status
      rw [if_neg hns]
    constructor
    · simp [download_imerg, hr, hrs]
    · simp only [download_imerg, hr, hrs]
      exact fsGet_fsWrite p r.content (fsRemove p fs)

/-- Witness for the amended C8: a 200 response is written to the save
path with no error raised. -/
theorem c8_error_propagation_witness :
    (http200 (imergRequestURL ("L") 7 19875) =
        Except.ok { status := 200, content := [1, 2] } ∧
      ¬ (400 ≤ 200 ∧ 200 < 600)) ∧
    ((download_imerg http200 19875 ("L") 7 ("temp/imerg_temp.nc") []).1 =
        Except.ok () ∧
      fsGet ("temp/imerg_temp.nc")
        (download_imerg http200 19875 ("L") 7
          ("temp/imerg_temp.nc") []).2 = some [1, 2]) :=
  ⟨⟨rfl, by omega⟩,
    (c8_error_propagation http200 19875 ("L") 7
      ("temp/imerg_temp.nc") []).2.2
      { status := 200, content := [1, 2] } rfl (by decide)⟩

/-- Claim C10: `download_imerg` deletes any pre-existing file at
`save_path` before the GET — the resulting filesystem is either the
input with `save_path` removed, or that with the fresh response body
written over `save_path` — so whenever it raises (GET failure or error
status), no file exists at `save_path` afterwards: a failed fetch never
leaves the previous raw file in place. -/
theorem c10_no_stale_file (http : String → Except String HttpResponse)
    (d : Nat) (run : String) (v : Nat) (p : String) (fs : FS) :
    ((download_imerg http d run v p fs).2 = fsRemove p fs ∨
      ∃ r, http (imergRequestURL run v d) = Except.ok r ∧
        (download_imerg http d run v p fs).2 =
          fsWrite p r.content (fsRemove p fs)) ∧
    ((download_imerg http d run v p fs).1 ≠ Except.ok () →
      fsGet p (download_imerg http d run v p fs).2 = none) := by
  rcases hh : http (imergRequestURL run v d) with e | r
  · constructor
    · exact Or.inl (by simp [download_imerg, hh])
    · intro _
      have h2 : (download_imerg http d run v p fs).2 = fsRemove p fs := by
        simp [download_imerg, hh]
      rw [h2]
      exact fsGet_fsRemove p fs
  · rcases hrs : raise_for_status r with e2 | u
    · constructor
      · exact Or.inl (by simp [download_imerg, hh, hrs])
      · intro _
        have h2 : (download_imerg http d run v p fs).2 = fsRemove p fs := by
          simp [download_imerg, hh, hrs]
        rw [h2]
        exact fsGet_fsRemove p fs
    · constructor
      · exact Or.inr ⟨r, rfl, by simp [download_imerg, hh, hrs]⟩
      · intro hne
        exact absurd (by simp [download_imerg, hh, hrs]) hne

/-- Witness for C10: with the network down and a stale raw file at the
save path, the failed fetch leaves no file there. -/
theorem c10_no_stale_file_witness :
    (download_imerg httpDown 19875 ("L") 7 ("temp/imerg_temp.nc")
        [(("temp/imerg_temp.nc"), [9])]).1 ≠ Except.ok () ∧
    fsGet ("temp/imerg_temp.nc")
      (download_imerg httpDown 19875 ("L") 7 ("temp/imerg_temp.nc")
        [(("temp/imerg_temp.nc"), [9])]).2 = none := by
  have hne : (download_imerg httpDown 19875 ("L") 7 ("temp/imerg_temp.nc")
      [(("temp/imerg_temp.nc"), [9])]).1 ≠ Except.ok () := by
    intro hcon
    simp [download_imerg, httpDown] at hcon
  exact ⟨hne, (c10_no_stale_file httpDown 19875 ("L") 7
    ("temp/imerg_temp.nc") [(("temp/imerg_temp.nc"), [9])]).2 hne⟩
